import Mathlib

/-!
Shallow embedding of `aero_util` (files `aero_util/tecio.py` and
`aero_util/core.py`) and proofs about its specification.

Strings are modelled as `List Char`; Python text streams are a character
list plus a read position.  The parser works on ASCII input, so the
Python `str` predicates (`isspace`, `\w`, `upper`, ...) are modelled on
their ASCII behaviour.
-/

/-- Whitespace characters recognized by Python `str.strip` / `str.split`
(ASCII subset). -/
def pySpace (c : Char) : Bool :=
  c = ' ' ∨ c = '\t' ∨ c = '\n' ∨ c = '\r' ∨ c = '\x0b' ∨ c = '\x0c'

/-- Python `str.strip()` on a character list. -/
def pyStrip (l : List Char) : List Char :=
  ((l.dropWhile pySpace).reverse.dropWhile pySpace).reverse

/-- Python `str.upper()` on one character (ASCII behaviour). -/
def upChar (c : Char) : Char :=
  if 97 ≤ c.toNat ∧ c.toNat ≤ 122 then Char.ofNat (c.toNat - 32) else c

/-- Python `str.upper()` on a character list (ASCII behaviour). -/
def upStr (l : List Char) : List Char := l.map upChar

/-- Python `str.lower()` on one character (ASCII behaviour). -/
def lowChar (c : Char) : Char :=
  if 65 ≤ c.toNat ∧ c.toNat ≤ 90 then Char.ofNat (c.toNat + 32) else c

/-- Word characters of the regex class `\w` (ASCII behaviour). -/
def wordChar (c : Char) : Bool := c.isAlpha ∨ c.isDigit ∨ c = '_'

/-- Python `str.split()` helper: accumulates the current word (reversed)
while scanning. -/
def splitWSAux : List Char → List Char → List (List Char)
  | [], acc => if acc = [] then [] else [acc.reverse]
  | c :: cs, acc =>
    if pySpace c then
      if acc = [] then splitWSAux cs [] else acc.reverse :: splitWSAux cs []
    else splitWSAux cs (c :: acc)

/-- Python `str.split()` (split on whitespace runs, no empty items). -/
def pySplitWS (l : List Char) : List (List Char) := splitWSAux l []

/-- Python `str.split(maxsplit=1)`: at most one split on the first
whitespace run; the remainder keeps its trailing whitespace. -/
def pySplitMax1WS (l : List Char) : List (List Char) :=
  let t := l.dropWhile pySpace
  if t = [] then []
  else
    let w := t.takeWhile (fun c => ¬ pySpace c)
    let rest := (t.drop w.length).dropWhile pySpace
    if rest = [] then [w] else [w, rest]

/-- Python `str.split('=', maxsplit=1)`. -/
def splitEqMax1 (l : List Char) : List (List Char) :=
  let pre := l.takeWhile (fun c => c ≠ '=')
  if pre.length = l.length then [l] else [pre, l.drop (pre.length + 1)]

/-- Python exception values raised by the modelled code. -/
inductive PyErr where
  | assertionError (msg : String)
  | unboundLocal (name : String)
  | typeError (msg : String)
  | runtimeError (msg : String)
  | valueError (msg : String)
  | indexError
  | outOfFuel
deriving DecidableEq, Repr

/-- Python `int(...)` digit-run value (no digits ⇒ failure). -/
def digitsToNat : List Char → Option Nat
  | [] => none
  | l => l.foldlM (fun acc c => if c.isDigit then some (acc * 10 + (c.toNat - 48)) else none) 0

/-- Python `int(str)`: strip whitespace, optional sign, decimal digits.
(Underscore digit separators are not modelled; none occur here.) -/
def pyInt (l : List Char) : Except PyErr Int :=
  let t := pyStrip l
  let core : List Char × Bool :=
    match t with
    | '+' :: ds => (ds, false)
    | '-' :: ds => (ds, true)
    | ds => (ds, false)
  match digitsToNat core.1 with
  | none => .error (.valueError "invalid literal for int() with base 10")
  | some n => .ok (if core.2 then -(n : Int) else (n : Int))

/-- A Python text-mode stream: file contents plus current read position
(`f.tell()`). -/
structure TStream where
  content : List Char
  pos : Nat
deriving DecidableEq, Repr

/-- Wraps string contents as a freshly opened stream. -/
def TStream.ofString (s : String) : TStream := ⟨s.data, 0⟩

/-- Characters of one line: everything up to and including the first
newline. -/
def takeLine : List Char → List Char
  | [] => []
  | c :: cs => if c = '\n' then ['\n'] else c :: takeLine cs

/-- Python `f.readline()`: returns the next line (newline included) and
advances the position; returns `""` at end of file. -/
def TStream.readline (s : TStream) : String × TStream :=
  let ln := takeLine (s.content.drop s.pos)
  (String.mk ln, ⟨s.content, s.pos + ln.length⟩)

/-- Python `f.read(n)` (used to model a partial, mid-line read). -/
def TStream.read (s : TStream) (n : Nat) : String × TStream :=
  let cs := (s.content.drop s.pos).take n
  (String.mk cs, ⟨s.content, s.pos + cs.length⟩)

/-- First word of a line as computed by `_peek_line`:
the run of characters before the first space or `=`
(the line has already been stripped). -/
def firstWord (l : List Char) : List Char :=
  l.takeWhile (fun c => ¬ (c = ' ' ∨ c = '='))

/-- One resumption of the `_peek_line` generator, with fuel.  Blank lines
are read and left consumed; when a non-blank line is found the stream is
restored (`f.seek(position)`) to the start of that line and its first
word is yielded.  At end of file the generator is exhausted. -/
def peekAux : Nat → TStream → Option String × TStream
  | 0, s => (none, s)
  | fuel + 1, s =>
    let r := s.readline
    if r.1.data = [] then (none, s)
    else
      let stripped := pyStrip r.1.data
      if stripped = [] then peekAux fuel r.2
      else (some (String.mk (firstWord stripped)), s)

/-- Model of one `next()` on the `_peek_line(f)` generator, run from the
stream's current state (the generator re-reads `f.tell()` each
iteration, so successive resumptions are independent calls). -/
def TStream.peek (s : TStream) : Option String × TStream :=
  peekAux (s.content.length + 1) s

/-- Consumes the optional leading comma of the key-value pattern. -/
def stripComma (cs : List Char) : List Char :=
  match cs with
  | [] => []
  | c :: t => if c = ',' then t else c :: t

/-- One match attempt of the pattern used by `_read_zone_options`,
namely the regular expression composed of an optional comma, optional
whitespace, a captured word, optional whitespace and a literal equals
sign, anchored at the head of `cs`.  The character classes are disjoint,
so greedy matching is deterministic.  Returns the captured word and the
input remaining after the match. -/
def matchKV (cs : List Char) : Option (List Char × List Char) :=
  let cs2 := (stripComma cs).dropWhile pySpace
  let w := cs2.takeWhile wordChar
  if w = [] then none
  else
    match (cs2.drop w.length).dropWhile pySpace with
    | '=' :: t => some (w, t)
    | _ => none

theorem stripComma_length_le (cs : List Char) : (stripComma cs).length ≤ cs.length := by
  cases cs with
  | nil => simp [stripComma]
  | cons c t => simp only [stripComma]; split <;> simp

theorem matchKV_length_lt (cs w after : List Char)
    (h : matchKV cs = some (w, after)) : after.length < cs.length := by
  simp only [matchKV] at h
  split at h
  · exact absurd h (by simp)
  · split at h
    case _ t heq =>
      simp only [Option.some.injEq, Prod.mk.injEq] at h
      have hlen := congrArg List.length heq
      have h1 : ((((stripComma cs).dropWhile pySpace).drop
          (((stripComma cs).dropWhile pySpace).takeWhile wordChar).length).dropWhile
            pySpace).length ≤
          (((stripComma cs).dropWhile pySpace).drop
            (((stripComma cs).dropWhile pySpace).takeWhile wordChar).length).length :=
        (List.dropWhile_sublist _).length_le
      have h2 : ((stripComma cs).dropWhile pySpace).length ≤ (stripComma cs).length :=
        (List.dropWhile_sublist _).length_le
      have h3 := stripComma_length_le cs
      have h4 : (((stripComma cs).dropWhile pySpace).drop
          (((stripComma cs).dropWhile pySpace).takeWhile wordChar).length).length ≤
          ((stripComma cs).dropWhile pySpace).length := by
        simp [List.length_drop]
      have hafter : after = t := h.2.symm
      subst hafter
      simp only [List.length_cons] at hlen
      omega
    · exact absurd h (by simp)

/-- Model of `re.split` with the key-value pattern of
`_read_zone_options`: scan left to right, and at each match emit the
text before it and the captured group, then continue after the match.
`acc` holds (reversed) the text scanned since the last match.  Every
step consumes at least one character, so fuel `length + 1` never runs
out (the fuel-exhausted base case is unreachable). -/
def rsplitKVAux : Nat → List Char → List Char → List (List Char)
  | 0, acc, _ => [acc.reverse]
  | fuel + 1, acc, l =>
    match l with
    | [] => [acc.reverse]
    | c :: rest =>
      match matchKV (c :: rest) with
      | some (w, after) => acc.reverse :: w :: rsplitKVAux fuel [] after
      | none => rsplitKVAux fuel (c :: acc) rest

/-- Model of `re.split` with the key-value pattern on a whole string. -/
def rsplitKV (l : List Char) : List (List Char) := rsplitKVAux (l.length + 1) [] l

/-- Tokens of a zone header: split on the key-value pattern, then strip
and uppercase every piece (`_read_zone_options`, the list
comprehension). -/
def headerTokens (header : List Char) : List (List Char) :=
  (rsplitKV (pyStrip header)).map (fun t => upStr (pyStrip t))

/-- Elements at even positions 0, 2, 4, ... of a list (Python slice
`l[0::2]`). -/
def everyOther : List α → List α
  | [] => []
  | [a] => [a]
  | a :: _ :: rest => a :: everyOther rest

/-- Key-value pairs of a zone header: `zip(tokens[1::2], tokens[2::2])`
(token 0 is the text before the first key, always empty). -/
def headerPairs (header : List Char) : List (List Char × List Char) :=
  let toks := headerTokens header
  List.zip (everyOther toks.tail) (everyOther toks.tail.tail)

/-- Lookup in the dictionary built by `dict(zip(keys, values))`: the
last binding of a key wins. -/
def pyDictGet (pairs : List (List Char × List Char)) (k : List Char) :
    Option (List Char) :=
  pairs.foldl (fun acc p => if p.1 = k then some p.2 else acc) none

/-- Delimiter set of `_remove_delimiters`. -/
def pyDelims : List Char := ['"', '\'', '(', ')', '[', ']']

/-- Model of `_remove_delimiters`: drop the first and last character when
both are members of the delimiter set (possibly a non-matching pair). -/
def removeDelimiters (s : List Char) : List Char :=
  match s.head?, s.getLast? with
  | some a, some b =>
    if pyDelims.contains a ∧ pyDelims.contains b then s.tail.dropLast else s
  | _, _ => s

/-- Parsed zone options (the cleaned-up dictionary built at the end of
`_read_zone_options`). -/
structure ZoneOptions where
  T : List Char
  I : Int
  J : Int
  K : Int
  DT : List (List Char)
  ZONETYPE : List Char
  DATAPACKING : List Char
deriving DecidableEq, Repr

/-- Integer coercion of a zone option: `int(options.get(key, 1))`. -/
def pyIntD : Option (List Char) → Except PyErr Int
  | none => .ok 1
  | some v => pyInt v

/-- Clean-up section of `_read_zone_options`: build the options record
from the header text (dequote, coerce types, apply defaults). -/
def zoneOptionsOfHeader (header : List Char) : Except PyErr ZoneOptions :=
  let pairs := headerPairs header
  let t := removeDelimiters ((pyDictGet pairs "T".data).getD [])
  let dt := pySplitWS (removeDelimiters ((pyDictGet pairs "DT".data).getD "DOUBLE".data))
  let zt := removeDelimiters ((pyDictGet pairs "ZONETYPE".data).getD "ORDERED".data)
  let dp := removeDelimiters ((pyDictGet pairs "DATAPACKING".data).getD "BLOCK".data)
  match pyIntD (pyDictGet pairs "I".data), pyIntD (pyDictGet pairs "J".data),
        pyIntD (pyDictGet pairs "K".data) with
  | .ok i, .ok j, .ok k => .ok ⟨t, i, j, k, dt, zt, dp⟩
  | .error e, _, _ => .error e
  | .ok _, .error e, _ => .error e
  | .ok _, .ok _, .error e => .error e

/-- Boundary test of the zone-header loop: the source checks membership
of the peeked first character in the literal string of line 106 of
`tecio.py` (note: the digit 7 is absent from that literal). -/
def isDataStart (c : Char) : Bool := ("123456890+-.".data).contains c

/-- Header-accumulation loop of `_read_zone_options`: keep appending
continuation lines until a peeked first character looks like numeric
data.  Indexing `first_word[0]` on an empty first word raises
`IndexError`. -/
def collectHeaderAux : Nat → TStream → List Char → Except PyErr (List Char × TStream)
  | 0, _, _ => .error .outOfFuel
  | fuel + 1, s, acc =>
    match s.peek with
    | (none, s') => .ok (acc, s')
    | (some w, s') =>
      match w.data with
      | [] => .error .indexError
      | c :: _ =>
        if isDataStart c then .ok (acc, s')
        else
          let r := s'.readline
          collectHeaderAux fuel r.2 (acc ++ r.1.data)

/-- Model of `_read_zone_options`: strip the `ZONE` keyword (raising
`IndexError` when nothing follows it, as `split(maxsplit=1)[1]` does),
accumulate the header, then parse it into options. -/
def readZoneOptions (s : TStream) : Except PyErr (ZoneOptions × TStream) :=
  let r := s.readline
  match pySplitMax1WS r.1.data with
  | _ :: rest :: _ =>
    match collectHeaderAux (s.content.length + 1) r.2 rest with
    | .error e => .error e
    | .ok (header, s') =>
      match zoneOptionsOfHeader header with
      | .error e => .error e
      | .ok opts => .ok (opts, s')
  | _ => .error .indexError

/-- Keyword list `_TECPLOT_KEYWORDS` of `tecio.py`. -/
def TECPLOT_KEYWORDS : List (List Char) :=
  ["TITLE", "FILETYPE", "VARIABLES", "ZONE", "TEXT",
   "GEOMETRY", "CUSTOMLABELS", "DATASETAUXDATA", "VARAUXDATA"].map String.data

/-- Whitespace set of `shlex` (space, tab, carriage return, newline). -/
def shlexSpace (c : Char) : Bool :=
  c = ' ' ∨ c = '\t' ∨ c = '\r' ∨ c = '\n'

/-- Lexer mode of the `shlex.split` model: outside quotes, inside
single quotes, or inside double quotes. -/
inductive LexMode where
  | normal
  | inSingle
  | inDouble
deriving DecidableEq, Repr

/-- Model of POSIX `shlex.split`: whitespace-separated tokens with
shell-style single/double quoting and backslash escapes (inside double
quotes a backslash escapes only a quote or a backslash and is otherwise
kept).  `tok` is the token in progress (reversed; `none` when no token
has started), `acc` the finished tokens (reversed). -/
def shlexAux : List Char → LexMode → Option (List Char) → List (List Char) →
    Except PyErr (List (List Char))
  | [], .normal, tok, acc =>
    .ok ((match tok with | none => acc | some t => t.reverse :: acc).reverse)
  | [], _, _, _ => .error (.valueError "No closing quotation")
  | c :: cs, .normal, tok, acc =>
    if shlexSpace c then
      match tok with
      | none => shlexAux cs .normal none acc
      | some t => shlexAux cs .normal none (t.reverse :: acc)
    else if c = '\'' then shlexAux cs .inSingle (some (tok.getD [])) acc
    else if c = '"' then shlexAux cs .inDouble (some (tok.getD [])) acc
    else if c = '\\' then
      match cs with
      | [] => .error (.valueError "No escaped character")
      | e :: cs' => shlexAux cs' .normal (some (e :: tok.getD [])) acc
    else shlexAux cs .normal (some (c :: tok.getD [])) acc
  | c :: cs, .inSingle, tok, acc =>
    if c = '\'' then shlexAux cs .normal tok acc
    else shlexAux cs .inSingle (some (c :: tok.getD [])) acc
  | c :: cs, .inDouble, tok, acc =>
    if c = '"' then shlexAux cs .normal tok acc
    else if c = '\\' then
      match cs with
      | [] => .error (.valueError "No escaped character")
      | e :: cs' =>
        if e = '"' ∨ e = '\\' then shlexAux cs' .inDouble (some (e :: tok.getD [])) acc
        else shlexAux cs' .inDouble (some (e :: '\\' :: tok.getD [])) acc
    else shlexAux cs .inDouble (some (c :: tok.getD [])) acc

/-- Model of `shlex.split(record)` used by `_read_variables`. -/
def shlexSplit (l : List Char) : Except PyErr (List (List Char)) :=
  shlexAux l .normal none []

/-- Continuation-line loop of `_read_variables`: keep consuming lines
until the peeked first word (upper-cased) is a recognized top-level
keyword, or the stream is exhausted. -/
def collectVarsAux : Nat → TStream → List Char → Except PyErr (List Char × TStream)
  | 0, _, _ => .error .outOfFuel
  | fuel + 1, s, acc =>
    match s.peek with
    | (none, s') => .ok (acc, s')
    | (some w, s') =>
      if TECPLOT_KEYWORDS.contains (upStr w.data) then .ok (acc, s')
      else
        let r := s'.readline
        collectVarsAux fuel r.2 (acc ++ r.1.data)

/-- Model of `_read_variables`: strip the leading `VARIABLES =` (the
indexing `split('=', maxsplit=1)[1]` raises `IndexError` when there is
no equals sign), accumulate continuation lines, and tokenize the record
with shell-style quoting. -/
def readVariables (s : TStream) : Except PyErr (List (List Char) × TStream) :=
  let r := s.readline
  match splitEqMax1 r.1.data with
  | _ :: record :: _ =>
    match collectVarsAux (s.content.length + 1) r.2 record with
    | .error e => .error e
    | .ok (record', s') =>
      match shlexSplit record' with
      | .error e => .error e
      | .ok toks => .ok (toks, s')
  | _ => .error .indexError

/-- Value of a run of decimal digits. -/
def digitsVal (l : List Char) : Nat :=
  l.foldl (fun acc c => acc * 10 + (c.toNat - 48)) 0

/-- Builds the reduced rational with value `na / d` (negated when `neg`)
directly by the `Rat` constructor, so that concrete values reduce in the
kernel (the library's rational arithmetic is irreducible by design). -/
def mkRatRed (neg : Bool) (na d : Nat) (hd : d ≠ 0) : ℚ :=
  let g := Nat.gcd na d
  have hg : 0 < g := Nat.gcd_pos_of_pos_right na (Nat.pos_of_ne_zero hd)
  have hdg : d / g ≠ 0 :=
    Nat.ne_of_gt (Nat.div_pos (Nat.le_of_dvd (Nat.pos_of_ne_zero hd)
      (Nat.gcd_dvd_right na d)) hg)
  have hco : (if neg then -(na / g : Int) else (na / g : Int)).natAbs.Coprime (d / g) := by
    have h := Nat.coprime_div_gcd_div_gcd (m := na) (n := d) hg
    cases neg <;> simpa using h
  ⟨if neg then -(na / g : Int) else (na / g : Int), d / g, hdg, hco⟩

/-- Decimal floating-point literal parsed as an exact rational:
optional sign, integer digits, optional fraction, optional exponent
(the grammar `numpy.fromfile` accepts for the files modelled here; the
parsed IEEE double is this value correctly rounded, and the claims
proved below compare values that either are exactly representable or
come from identical literals, so exact rationals are faithful).  The
value is `±(ipdigits.fpdigits) * 10^e`. -/
def parseNum (t : List Char) : Option ℚ :=
  let (neg, t1) : Bool × List Char :=
    match t with
    | '+' :: r => (false, r)
    | '-' :: r => (true, r)
    | r => (false, r)
  let ip := t1.takeWhile Char.isDigit
  let t2 := t1.drop ip.length
  let (fp, t3) : List Char × List Char :=
    match t2 with
    | '.' :: r => (r.takeWhile Char.isDigit, r.drop (r.takeWhile Char.isDigit).length)
    | r => ([], r)
  if ip = [] ∧ fp = [] then none
  else
    let mant : Nat := digitsVal ip * 10 ^ fp.length + digitsVal fp
    let value : Int → ℚ := fun e =>
      let sh : Int := e - (fp.length : Int)
      if 0 ≤ sh then mkRatRed neg (mant * 10 ^ sh.toNat) 1 one_ne_zero
      else mkRatRed neg mant (10 ^ (-sh).toNat) (pow_ne_zero _ (by decide))
    match t3 with
    | [] => some (value 0)
    | e :: r =>
      if e = 'e' ∨ e = 'E' then
        let (esgn, r1) : Bool × List Char :=
          match r with
          | '+' :: rr => (false, rr)
          | '-' :: rr => (true, rr)
          | rr => (false, rr)
        if r1 ≠ [] ∧ r1.all Char.isDigit then
          some (value (if esgn then -(digitsVal r1 : Int) else (digitsVal r1 : Int)))
        else none
      else none

/-- Next whitespace-separated token of the stream, consuming through its
last character (the separator-driven scan of `numpy.fromfile`). -/
def TStream.nextToken (s : TStream) : Option (List Char × TStream) :=
  let rest := s.content.drop s.pos
  let ws := rest.takeWhile pySpace
  let tok := (rest.drop ws.length).takeWhile (fun c => ¬ pySpace c)
  if tok = [] then none
  else some (tok, ⟨s.content, s.pos + ws.length + tok.length⟩)

/-- Token-reading loop of `np.fromfile(f, count, sep=' ')`: reads up to
`count` whitespace-separated values, stopping early at end of data or at
an unparsable token (the result is then shorter than requested). -/
def npFromfileAux : Nat → TStream → Nat → List ℚ × TStream
  | 0, s, _ => ([], s)
  | _, s, 0 => ([], s)
  | fuel + 1, s, n + 1 =>
    match s.nextToken with
    | none => ([], s)
    | some (tok, s') =>
      match parseNum tok with
      | none => ([], s)
      | some q =>
        let r := npFromfileAux fuel s' n
        (q :: r.1, r.2)

/-- Model of `np.fromfile(f, count=count, sep=' ')`; a negative count
reads everything that remains. -/
def npFromfile (s : TStream) (count : Int) : List ℚ × TStream :=
  npFromfileAux (s.content.length + 1) s
    (if count < 0 then s.content.length + 1 else count.toNat)

/-- Per-variable extraction for `DATAPACKING=POINT`: the flat buffer is
viewed as shape `(nvars, I, J, K)` in Fortran order, so element
`(v, i, j, k)` sits at flat index `v + nvars*(i + I*(j + J*k))`, and
`p = i + I*(j + J*k)` enumerates grid points in Fortran order.  The
result is variable `v`'s array flattened in Fortran (column-major)
order; `np.squeeze` only removes size-1 axes and does not change this
flattening. -/
def extractPoint (flat : List ℚ) (nvars npts v : Nat) : List ℚ :=
  (List.range npts).map (fun p => flat.getD (v + nvars * p) 0)

/-- Per-variable extraction for `DATAPACKING=BLOCK`: the flat buffer is
viewed as shape `(I, J, K, nvars)` in Fortran order, so element
`(i, j, k, v)` sits at flat index `p + I*J*K*v` with
`p = i + I*(j + J*k)`; the result is variable `v`'s array flattened in
Fortran order. -/
def extractBlock (flat : List ℚ) (npts v : Nat) : List ℚ :=
  (List.range npts).map (fun p => flat.getD (npts * v + p) 0)

/-- A parsed zone: the insertion-ordered, name-keyed mapping
`dict(zip(varnames, vardata))`, with each variable's array stored as its
Fortran-order flattening. -/
def Zone := List (String × List ℚ)
deriving DecidableEq, Repr

/-- Python dict insertion: a later binding overwrites an earlier one in
place, otherwise it appends. -/
def dictInsert (d : List (String × List ℚ)) (k : String) (v : List ℚ) :
    List (String × List ℚ) :=
  if d.any (fun p => p.1 = k) then d.map (fun p => if p.1 = k then (k, v) else p)
  else d ++ [(k, v)]

/-- Model of `dict(zip(names, values))` (zip truncates to the shorter
list; for duplicate names the last value wins). -/
def dictOfList (l : List (String × List ℚ)) : Zone :=
  l.foldl (fun d p => dictInsert d p.1 p.2) []

/-- Synthesized variable names `V0, V1, ..., V{n-1}`. -/
def synthNames (n : Nat) : List String :=
  (List.range n).map (fun i => "V" ++ toString i)

/-- Column count of the next unread data line (token count of
`f.readline()` at the current position; the position itself is restored
by `f.seek`). -/
def numCols (s : TStream) : Nat := (pySplitWS s.readline.1.data).length

/-- Model of `_read_zone`.  An empty `varnames` models both Python
`None` and an empty list (the source only tests truthiness).  Steps:
parse the zone options; if no variable names are known, require
`POINT` packing and synthesize names from the column count of the next
unread line (restoring the position); require an `ORDERED` zone; bulk
read `I*J*K*nvars` values; reshape per the packing (numpy's reshape
fails on a negative extent or a size mismatch); return the name-keyed
mapping. -/
def readZone (s : TStream) (varnames : List String) : Except PyErr (Zone × TStream) :=
  match readZoneOptions s with
  | .error e => .error e
  | .ok (opts, s₁) =>
    let named : Except PyErr (List String) :=
      if varnames.isEmpty then
        if opts.DATAPACKING = "POINT".data then .ok (synthNames (numCols s₁))
        else .error (.assertionError "Data must be in point format if variable names are omitted.")
      else .ok varnames
    match named with
    | .error e => .error e
    | .ok names =>
      if opts.ZONETYPE = "ORDERED".data then
        let nvars := names.length
        let total : Int := opts.I * opts.J * opts.K * (nvars : Int)
        let r := npFromfile s₁ total
        if opts.I < 0 ∨ opts.J < 0 ∨ opts.K < 0 then
          .error (.valueError "negative dimensions are not allowed")
        else
          let npts := opts.I.toNat * opts.J.toNat * opts.K.toNat
          if r.1.length = nvars * npts then
            let vardata :=
              if opts.DATAPACKING = "POINT".data then
                (List.range nvars).map (fun v => extractPoint r.1 nvars npts v)
              else
                (List.range nvars).map (fun v => extractBlock r.1 npts v)
            .ok (dictOfList (names.zip vardata), r.2)
          else .error (.valueError "cannot reshape array")
      else .error (.assertionError "This function only supports ordered zones")

/-- Model of `_read_dat_impl`: dispatch on the peeked first word of each
non-blank line; `VARIABLES` updates the current name list, `ZONE`
appends a zone, anything else consumes one line.  An error anywhere
aborts the whole parse (nothing is returned).  The fuel only bounds the
number of loop iterations; every iteration consumes at least one
character, so the caller passes `content.length + 1`. -/
def readDatImpl : Nat → TStream → List String → Except PyErr (List Zone)
  | 0, _, _ => .error .outOfFuel
  | fuel + 1, s, varnames =>
    match s.peek with
    | (none, _) => .ok []
    | (some w, s₁) =>
      let uw := upStr w.data
      if uw = "VARIABLES".data then
        match readVariables s₁ with
        | .error e => .error e
        | .ok (vns, s₂) => readDatImpl fuel s₂ (vns.map String.mk)
      else if uw = "ZONE".data then
        match readZone s₁ varnames with
        | .error e => .error e
        | .ok (z, s₂) =>
          match readDatImpl fuel s₂ varnames with
          | .error e => .error e
          | .ok rest => .ok (z :: rest)
      else
        let r := s₁.readline
        readDatImpl fuel r.2 varnames

/-- Argument of `read_dat`: a path (standing for the contents of the
file it names) or an already-open text stream. -/
inductive PathOrFile where
  | path (contents : String)
  | file (stream : TStream)

/-- Model of `read_dat`.  For a path the file is opened and parsed.  For
an open stream the source enters the `else` branch and evaluates the
local name `f`, which is only assigned in the other branch, so Python
raises `UnboundLocalError` before any parsing happens. -/
def read_dat : PathOrFile → Except PyErr (List Zone)
  | .path contents =>
    readDatImpl (contents.length + 1) (TStream.ofString contents) []
  | .file _ => .error (.unboundLocal "f")

/-- Model of `_set_angles` at scalar type (used by `rotate_axis`,
`rotate_x`, `rotate_y`, `rotate_z`): `None` checks are equality tests,
but the final conversion is guarded by the truthiness test
`if angles_deg:`, which is false both for `None` and for the float `0`;
in the latter case the function returns `angles`, which is `None`. -/
noncomputable def set_angles (angles angles_deg : Option ℝ) : Except PyErr (Option ℝ) :=
  if angles = none ∧ angles_deg = none then
    .error (.runtimeError "Both angle and angle_deg are uninitialized")
  else if angles ≠ none ∧ angles_deg ≠ none then
    .error (.runtimeError "Both angle and angle_deg are defined; please define one or the other")
  else
    match angles_deg with
    | some d => if d = 0 then .ok angles else .ok (some (d * Real.pi / 180))
    | none => .ok angles

/-- Model of `np.cos` on a possibly-`None` scalar: `np.cos(None)` raises
`TypeError`. -/
noncomputable def npCos : Option ℝ → Except PyErr ℝ
  | none => .error (.typeError "unsupported operand type for cos")
  | some x => .ok (Real.cos x)

/-- Model of `np.sin` on a possibly-`None` scalar: `np.sin(None)` raises
`TypeError`. -/
noncomputable def npSin : Option ℝ → Except PyErr ℝ
  | none => .error (.typeError "unsupported operand type for sin")
  | some x => .ok (Real.sin x)

/-- Model of `rotate_x`. -/
noncomputable def rotate_x (angle angle_deg : Option ℝ) :
    Except PyErr (Matrix (Fin 3) (Fin 3) ℝ) :=
  match set_angles angle angle_deg with
  | .error e => .error e
  | .ok a =>
    match npCos a, npSin a with
    | .ok c, .ok s => .ok !![1, 0, 0; 0, c, s; 0, -s, c]
    | .error e, _ => .error e
    | _, .error e => .error e

/-- Model of `rotate_y`. -/
noncomputable def rotate_y (angle angle_deg : Option ℝ) :
    Except PyErr (Matrix (Fin 3) (Fin 3) ℝ) :=
  match set_angles angle angle_deg with
  | .error e => .error e
  | .ok a =>
    match npCos a, npSin a with
    | .ok c, .ok s => .ok !![c, 0, -s; 0, 1, 0; s, 0, c]
    | .error e, _ => .error e
    | _, .error e => .error e

/-- Model of `rotate_z`. -/
noncomputable def rotate_z (angle angle_deg : Option ℝ) :
    Except PyErr (Matrix (Fin 3) (Fin 3) ℝ) :=
  match set_angles angle angle_deg with
  | .error e => .error e
  | .ok a =>
    match npCos a, npSin a with
    | .ok c, .ok s => .ok !![c, s, 0; -s, c, 0; 0, 0, 1]
    | .error e, _ => .error e
    | _, .error e => .error e

/-- Model of `rotate_axis` (axis normalized first, then the
Euler-Rodrigues style direction-cosine matrix). -/
noncomputable def rotate_axis (axis : ℝ × ℝ × ℝ) (angle angle_deg : Option ℝ) :
    Except PyErr (Matrix (Fin 3) (Fin 3) ℝ) :=
  let norm := Real.sqrt (axis.1 * axis.1 + axis.2.1 * axis.2.1 + axis.2.2 * axis.2.2)
  let x := axis.1 / norm
  let y := axis.2.1 / norm
  let z := axis.2.2 / norm
  match set_angles angle angle_deg with
  | .error e => .error e
  | .ok a =>
    match npCos a, npSin a with
    | .ok c, .ok s =>
      let C := 1 - c
      .ok !![x*x*C + c,   x*y*C + z*s, x*z*C - y*s;
             y*x*C - z*s, y*y*C + c,   y*z*C + x*s;
             z*x*C + y*s, z*y*C - x*s, z*z*C + c]
    | .error e, _ => .error e
    | _, .error e => .error e

/-- Model of `_set_angles` at list type (used by `rotate_seq`): the
truthiness test `if angles_deg:` is false both for `None` and for an
empty list. -/
noncomputable def set_angles_list (angles angles_deg : Option (List ℝ)) :
    Except PyErr (Option (List ℝ)) :=
  if angles = none ∧ angles_deg = none then
    .error (.runtimeError "Both angle and angle_deg are uninitialized")
  else if angles ≠ none ∧ angles_deg ≠ none then
    .error (.runtimeError "Both angle and angle_deg are defined; please define one or the other")
  else
    match angles_deg with
    | some [] => .ok angles
    | some ds => .ok (some (ds.map (fun d => d * Real.pi / 180)))
    | none => .ok angles

/-- Model of `rotate_seq`: validate the angles, then left-fold the
per-axis rotations over `zip(sequence.lower(), angles)` starting from
the identity (`zip` truncates to the shorter sequence; `zip` of `None`
raises `TypeError`). -/
noncomputable def rotate_seq (sequence : String) (angles angles_deg : Option (List ℝ)) :
    Except PyErr (Matrix (Fin 3) (Fin 3) ℝ) :=
  match set_angles_list angles angles_deg with
  | .error e => .error e
  | .ok none => .error (.typeError "zip argument does not support iteration")
  | .ok (some as) =>
    ((sequence.data.map lowChar).zip as).foldlM
      (fun dcm pa =>
        if pa.1 = 'x' then (rotate_x (some pa.2) none).map (fun m => m * dcm)
        else if pa.1 = 'y' then (rotate_y (some pa.2) none).map (fun m => m * dcm)
        else if pa.1 = 'z' then (rotate_z (some pa.2) none).map (fun m => m * dcm)
        else .error (.runtimeError "Invalid rotation axis"))
      (1 : Matrix (Fin 3) (Fin 3) ℝ)

deriving instance DecidableEq for Except

/-- Literal end-to-end example file from the specification. -/
def exampleFile : String :=
  "VARIABLES = \"X\" \"Y\"\nZONE I=2 J=2 T=\"rect\" DATAPACKING=POINT\n1.0 1.0\n2.0 1.0\n2.0 2.0\n1.0 2.0\n"

/-- C1: parsing the literal example file returns a document with exactly
one zone, keyed `X` and `Y`, with `X = [1,2,2,1]` and `Y = [1,1,2,2]`
in column-major (I fastest, then J) flattening. -/
theorem c1_example_file_parse :
    read_dat (.path exampleFile) =
      .ok [[("X", [(1 : ℚ), 2, 2, 1]), ("Y", [(1 : ℚ), 1, 2, 2])]] := by
  decide

/-- C8: `read_dat` on an already-open stream always raises
`UnboundLocalError` for the name `f` (the stream branch of the source
references `f`, which is only assigned in the path branch), while the
identical contents passed as a path parse successfully. -/
theorem c8_read_dat_stream_unbound_local :
    (∀ s : TStream, read_dat (.file s) = .error (.unboundLocal "f")) ∧
    (read_dat (.path exampleFile)).isOk = true := by
  exact ⟨fun _ => rfl, by decide⟩

/-- C7 counterexample: with a blank line ahead, a peek yields the first
word of the following non-blank line but moves the caller-visible read
position (from 0 to 1 here), refuting the claim that the position is
unchanged by every peek. -/
theorem c7_cex_peek_moves_read_position :
    (TStream.ofString "\nA 1\n").peek.1 = some "A" ∧
    (TStream.ofString "\nA 1\n").peek.2.pos = 1 ∧
    (TStream.ofString "\nA 1\n").pos = 0 := by
  decide

/-- C6 counterexample: the declared title `T="rect"` parses to `RECT`,
not `rect`; characters are not preserved because the options parser
upper-cases value tokens. -/
theorem c6_cex_title_uppercased :
    (readZoneOptions (TStream.ofString "ZONE T=\"rect\"\n")).map (fun p => p.1.T) =
      .ok "RECT".data ∧ "RECT".data ≠ "rect".data := by
  decide

/-- C4: the numeric-payload boundary set of `_read_zone_options` is the
literal `123456890+-.`, which omits the digit 7: every other character
of the spec's thirteen-character set ends the header, `7` does not, and
a zone whose first data line starts with `7` absorbs that line into the
header and fails integer coercion. -/
theorem c4_header_boundary_missing_seven :
    isDataStart '7' = false ∧
    (∀ c : Char, c ∈ "0123456789+-.".data → c ≠ '7' → isDataStart c = true) ∧
    (∀ c : Char, isDataStart c = true → c ∈ "0123456789+-.".data) ∧
    readZoneOptions (TStream.ofString "ZONE I=1 J=1\n7.0\n") =
      .error (.valueError "invalid literal for int() with base 10") := by
  refine ⟨by decide, by decide, ?_, by decide⟩
  intro c hc
  have hc' : c ∈ "123456890+-.".data := List.elem_iff.mp hc
  fin_cases hc' <;> decide

/-- C4 witness: the character `0` is in the claimed boundary set, is not
`7`, and is accepted by the code's boundary test. -/
theorem c4_header_boundary_missing_seven_witness : isDataStart '0' = true :=
  c4_header_boundary_missing_seven.2.1 '0' (by decide) (by decide)

/-- C9: every rotation builder raises when neither angle is given and
when both are given; a radian angle (even 0) produces the documented
DCM; a nonzero degree angle is converted to radians; but the degree
value 0 is falsy in `_set_angles`, so `rotate_x(angle_deg=0)` leaves the
angle `None` and `np.cos(None)` raises `TypeError` instead of returning
the DCM. -/
theorem c9_rotation_builders_angle_validation :
    (rotate_x none none = .error (.runtimeError "Both angle and angle_deg are uninitialized")) ∧
    (rotate_y none none = .error (.runtimeError "Both angle and angle_deg are uninitialized")) ∧
    (rotate_z none none = .error (.runtimeError "Both angle and angle_deg are uninitialized")) ∧
    (∀ ax : ℝ × ℝ × ℝ, rotate_axis ax none none =
      .error (.runtimeError "Both angle and angle_deg are uninitialized")) ∧
    (rotate_seq "xyz" none none =
      .error (.runtimeError "Both angle and angle_deg are uninitialized")) ∧
    (∀ a d : ℝ, rotate_x (some a) (some d) =
      .error (.runtimeError
        "Both angle and angle_deg are defined; please define one or the other")) ∧
    (∀ a : ℝ, rotate_x (some a) none =
      .ok !![1, 0, 0; 0, Real.cos a, Real.sin a; 0, -Real.sin a, Real.cos a]) ∧
    (∀ d : ℝ, d ≠ 0 → rotate_x none (some d) =
      .ok !![1, 0, 0;
             0, Real.cos (d * Real.pi / 180), Real.sin (d * Real.pi / 180);
             0, -Real.sin (d * Real.pi / 180), Real.cos (d * Real.pi / 180)]) ∧
    (rotate_x none (some 0) = .error (.typeError "unsupported operand type for cos")) := by
  refine ⟨?_, ?_, ?_, ?_, ?_, ?_, ?_, ?_, ?_⟩
  · simp [rotate_x, set_angles]
  · simp [rotate_y, set_angles]
  · simp [rotate_z, set_angles]
  · intro ax; simp [rotate_axis, set_angles]
  · simp [rotate_seq, set_angles_list]
  · intro a d; simp [rotate_x, set_angles]
  · intro a; simp [rotate_x, set_angles, npCos, npSin]
  · intro d hd; simp [rotate_x, set_angles, npCos, npSin, hd]
  · simp [rotate_x, set_angles, npCos]

/-- C9 witness: the nonzero-degree conjunct applied at 90 degrees. -/
theorem c9_rotation_builders_angle_validation_witness :
    rotate_x none (some 90) =
      .ok !![1, 0, 0;
             0, Real.cos ((90 : ℝ) * Real.pi / 180), Real.sin ((90 : ℝ) * Real.pi / 180);
             0, -Real.sin ((90 : ℝ) * Real.pi / 180), Real.cos ((90 : ℝ) * Real.pi / 180)] :=
  c9_rotation_builders_angle_validation.2.2.2.2.2.2.2.1 90 (by norm_num)

/-- Any zone whose parsed options are structurally unsupported makes
`_read_zone` raise: either the ordered-zones assertion or the
point-format assertion fires before any data is returned. -/
theorem readZone_error_of_bad_options (s₁ s₂ : TStream) (vn : List String)
    (opts : ZoneOptions) (ho : readZoneOptions s₁ = .ok (opts, s₂))
    (hbad : opts.ZONETYPE ≠ "ORDERED".data ∨ (vn = [] ∧ opts.DATAPACKING ≠ "POINT".data)) :
    ∃ e, readZone s₁ vn = .error e := by
  simp only [readZone, ho]
  by_cases hvn : vn.isEmpty
  · by_cases hdp : opts.DATAPACKING = "POINT".data
    · rcases hbad with hzt | ⟨_, hdp'⟩
      · simp [hvn, hdp, hzt]
      · exact absurd hdp hdp'
    · simp [hvn, hdp]
  · have hvn' : vn ≠ [] := by
      intro hcon; subst hcon; simp at hvn
    rcases hbad with hzt | ⟨hnil, _⟩
    · simp [hvn, hzt]
    · exact absurd hnil hvn'

/-- Two-zone file whose second zone is a finite-element zone: the first
zone is valid, but the whole parse must fail. -/
def badZoneFile : String :=
  "VARIABLES = \"X\"\nZONE I=1\n5.0\nZONE I=1 ZONETYPE=FELINESEG\n6.0\n"

/-- C2: when the dispatcher reaches a ZONE record whose options declare
a non-`ORDERED` zone type, or which lacks variable names while not
`POINT`-packed, the zone parser raises and the parse as a whole returns
that error, not a document; concretely, a file with one valid zone
followed by a `FELINESEG` zone yields an error, not a partial zone
list. -/
theorem c2_unsupported_zonetype_aborts :
    (∀ (fuel : Nat) (s s₁ s₂ : TStream) (w : String) (vn : List String) (opts : ZoneOptions),
      s.peek = (some w, s₁) → upStr w.data = "ZONE".data →
      readZoneOptions s₁ = .ok (opts, s₂) →
      (opts.ZONETYPE ≠ "ORDERED".data ∨ (vn = [] ∧ opts.DATAPACKING ≠ "POINT".data)) →
      ∃ e, readZone s₁ vn = .error e ∧ readDatImpl (fuel + 1) s vn = .error e) ∧
    read_dat (.path badZoneFile) =
      .error (.assertionError "This function only supports ordered zones") := by
  constructor
  · intro fuel s s₁ s₂ w vn opts hp hup ho hbad
    obtain ⟨e, he⟩ := readZone_error_of_bad_options s₁ s₂ vn opts ho hbad
    refine ⟨e, he, ?_⟩
    have h1 : upStr w.data ≠ "VARIABLES".data := by rw [hup]; decide
    simp only [readDatImpl, hp]
    simp [h1, hup, he]
  · decide

/-- C2 witness: the universal part applied to a concrete stream holding
a `FELINESEG` zone with no variable names. -/
theorem c2_unsupported_zonetype_aborts_witness :
    ∃ e, readZone (TStream.ofString "ZONE ZONETYPE=FELINESEG I=1\n1.0\n") [] = .error e ∧
      readDatImpl 1 (TStream.ofString "ZONE ZONETYPE=FELINESEG I=1\n1.0\n") [] = .error e :=
  c2_unsupported_zonetype_aborts.1 0
    (TStream.ofString "ZONE ZONETYPE=FELINESEG I=1\n1.0\n")
    (TStream.ofString "ZONE ZONETYPE=FELINESEG I=1\n1.0\n")
    ⟨("ZONE ZONETYPE=FELINESEG I=1\n1.0\n").data, 28⟩ "ZONE" []
    ⟨[], 1, 1, 1, ["DOUBLE".data], "FELINESEG".data, "BLOCK".data⟩
    (by decide) (by decide) (by decide) (by decide)

/-- Flat value sequence of a `POINT`-packed payload: file order is
point-major (for each grid point, in Fortran order `p`, all variables in
order). -/
def pointPacked (nvars npts : Nat) (vals : Nat → Nat → ℚ) : List ℚ :=
  (List.range npts).flatMap (fun p => (List.range nvars).map (fun v => vals v p))

/-- Flat value sequence of a `BLOCK`-packed payload: file order is
variable-major (for each variable, all grid points in Fortran order). -/
def blockPacked (nvars npts : Nat) (vals : Nat → Nat → ℚ) : List ℚ :=
  (List.range nvars).flatMap (fun v => (List.range npts).map (fun p => vals v p))

theorem bindGrid_length (n m : Nat) (g : Nat → Nat → ℚ) :
    ((List.range n).flatMap (fun i => (List.range m).map (g i))).length = n * m := by
  induction n with
  | zero => simp
  | succ n ih =>
    rw [List.range_succ]
    simp only [List.flatMap_append, List.length_append, ih]
    simp [Nat.succ_mul]

theorem bindGrid_getD (n m : Nat) (g : Nat → Nat → ℚ) (a b : Nat)
    (ha : a < n) (hb : b < m) :
    ((List.range n).flatMap (fun i => (List.range m).map (g i))).getD (a * m + b) 0 = g a b := by
  induction n with
  | zero => omega
  | succ n ih =>
    rw [List.range_succ, List.flatMap_append]
    by_cases han : a < n
    · rw [List.getD_append]
      · exact ih han
      · rw [bindGrid_length]
        have h5 : (a + 1) * m ≤ n * m := Nat.mul_le_mul_right m han
        have h6 : (a + 1) * m = a * m + m := by ring
        omega
    · have haeq : a = n := by omega
      subst haeq
      rw [List.getD_append_right]
      · rw [bindGrid_length]
        simp only [Nat.add_sub_cancel_left, List.flatMap_cons, List.flatMap_nil, List.append_nil]
        rw [List.getD_eq_getElem _ _ (by simpa using hb)]
        simp [hb]
      · rw [bindGrid_length]; omega

/-- C3: re-laying out the same logical values as a `POINT` file or as a
`BLOCK` file gives, for each variable index, the identical per-variable
array under the parser's two reshape/extract paths. -/
theorem c3_point_block_same_arrays (nvars npts v : Nat) (hv : v < nvars)
    (vals : Nat → Nat → ℚ) :
    extractPoint (pointPacked nvars npts vals) nvars npts v =
      extractBlock (blockPacked nvars npts vals) npts v := by
  unfold extractPoint extractBlock pointPacked blockPacked
  apply List.map_congr_left
  intro p hp
  rw [List.mem_range] at hp
  have h1 : v + nvars * p = p * nvars + v := by ring
  have h2 : npts * v + p = v * npts + p := by ring
  rw [h1, h2]
  rw [bindGrid_getD npts nvars (fun p v => vals v p) p v hp hv]
  rw [bindGrid_getD nvars npts (fun v p => vals v p) v p hv hp]

/-- C3 witness: the round-trip equality at a concrete 2-variable,
4-point layout. -/
theorem c3_point_block_same_arrays_witness :
    extractPoint (pointPacked 2 4 (fun v p => ((v + p : Nat) : ℚ))) 2 4 0 =
      extractBlock (blockPacked 2 4 (fun v p => ((v + p : Nat) : ℚ))) 4 0 :=
  c3_point_block_same_arrays 2 4 0 (by decide) (fun v p => ((v + p : Nat) : ℚ))

/-- C5: with no known variable names and `POINT` packing, parsing the
zone is exactly parsing it with the synthesized names
`V0 .. V{n-1}` for `n` the token count of the next unread data line
(the lookahead readline is undone by the seek, so the data read starts
at that same line); concretely such a zone parses with keys `V0`, `V1`
and all `I*J*K*n` values. -/
theorem c5_synthesized_varnames :
    (∀ (s s₁ : TStream) (opts : ZoneOptions),
      readZoneOptions s = .ok (opts, s₁) → opts.DATAPACKING = "POINT".data →
      readZone s [] = readZone s (synthNames (numCols s₁))) ∧
    (readZone (TStream.ofString "ZONE I=2 DATAPACKING=POINT\n1.0 2.0\n3.0 4.0\n") []).map
        (fun p => p.1) =
      .ok [("V0", [(1 : ℚ), 3]), ("V1", [(2 : ℚ), 4])] := by
  constructor
  · intro s s₁ opts ho hdp
    by_cases hn : numCols s₁ = 0
    · rw [hn]
      show readZone s [] = readZone s ((List.range 0).map _)
      rfl
    · have hne : (synthNames (numCols s₁)).isEmpty = false := by
        cases hsn : synthNames (numCols s₁) with
        | nil =>
          exfalso
          apply hn
          have := congrArg List.length hsn
          simpa [synthNames] using this
        | cons a t => rfl
      simp only [readZone, ho, List.isEmpty_nil, hne, hdp, if_true, if_false,
        Bool.false_eq_true, ite_false]
  · decide

/-- C5 witness: the universal part applied to a concrete no-names,
point-packed zone with a two-column first data line. -/
theorem c5_synthesized_varnames_witness :
    readZone (TStream.ofString "ZONE I=2 DATAPACKING=POINT\n1.0 2.0\n3.0 4.0\n") [] =
      readZone (TStream.ofString "ZONE I=2 DATAPACKING=POINT\n1.0 2.0\n3.0 4.0\n")
        (synthNames (numCols ⟨("ZONE I=2 DATAPACKING=POINT\n1.0 2.0\n3.0 4.0\n").data, 27⟩)) :=
  c5_synthesized_varnames.1
    (TStream.ofString "ZONE I=2 DATAPACKING=POINT\n1.0 2.0\n3.0 4.0\n")
    ⟨("ZONE I=2 DATAPACKING=POINT\n1.0 2.0\n3.0 4.0\n").data, 27⟩
    ⟨[], 2, 1, 1, ["DOUBLE".data], "ORDERED".data, "POINT".data⟩
    (by decide) (by decide)

/-- C6 (amended): for every zone header, the parsed title is the
upper-cased declared title with one pair of surrounding delimiters
removed (not character-preserving: `T="rect"` yields `RECT`), and every
absent key takes its default: `T=""`, `I=1`, `J=1`, `K=1`,
`DT=["DOUBLE"]`, `ZONETYPE="ORDERED"`, `DATAPACKING="BLOCK"`. -/
theorem c6_options_title_and_defaults :
    (∀ (header : List Char) (o : ZoneOptions),
      zoneOptionsOfHeader header = .ok o →
      (pyDictGet (headerPairs header) "T".data = none → o.T = []) ∧
      (∀ v, pyDictGet (headerPairs header) "T".data = some v → o.T = removeDelimiters v) ∧
      (pyDictGet (headerPairs header) "I".data = none → o.I = 1) ∧
      (pyDictGet (headerPairs header) "J".data = none → o.J = 1) ∧
      (pyDictGet (headerPairs header) "K".data = none → o.K = 1) ∧
      (pyDictGet (headerPairs header) "DT".data = none → o.DT = ["DOUBLE".data]) ∧
      (pyDictGet (headerPairs header) "ZONETYPE".data = none → o.ZONETYPE = "ORDERED".data) ∧
      (pyDictGet (headerPairs header) "DATAPACKING".data = none →
        o.DATAPACKING = "BLOCK".data)) ∧
    (zoneOptionsOfHeader "T=\"rect\" I=2".data).map ZoneOptions.T = .ok "RECT".data := by
  constructor
  · intro header o hok
    simp only [zoneOptionsOfHeader] at hok
    cases hI : pyIntD (pyDictGet (headerPairs header) "I".data) with
    | error e => rw [hI] at hok; exact absurd hok (by simp)
    | ok i =>
    cases hJ : pyIntD (pyDictGet (headerPairs header) "J".data) with
    | error e => rw [hI, hJ] at hok; exact absurd hok (by simp)
    | ok j =>
    cases hK : pyIntD (pyDictGet (headerPairs header) "K".data) with
    | error e => rw [hI, hJ, hK] at hok; exact absurd hok (by simp)
    | ok k =>
    rw [hI, hJ, hK] at hok
    simp only [Except.ok.injEq] at hok
    subst hok
    refine ⟨?_, ?_, ?_, ?_, ?_, ?_, ?_, ?_⟩
    · intro h; simp [h, removeDelimiters]
    · intro v h; simp [h]
    · intro h; rw [h] at hI; simpa [pyIntD] using hI.symm
    · intro h; rw [h] at hJ; simpa [pyIntD] using hJ.symm
    · intro h; rw [h] at hK; simpa [pyIntD] using hK.symm
    · intro h; rw [h]; rfl
    · intro h; rw [h]; rfl
    · intro h; rw [h]; rfl
  · decide

/-- C6 witness: the universal part applied to the concrete header
`T="rect" I=2`, whose `J` key is absent. -/
theorem c6_options_title_and_defaults_witness :
    (pyDictGet (headerPairs "T=\"rect\" I=2".data) "J".data = none →
      (ZoneOptions.mk "RECT".data 2 1 1 ["DOUBLE".data] "ORDERED".data "BLOCK".data).J = 1) :=
  (c6_options_title_and_defaults.1 "T=\"rect\" I=2".data
    ⟨"RECT".data, 2, 1, 1, ["DOUBLE".data], "ORDERED".data, "BLOCK".data⟩
    (by decide)).2.2.2.1

theorem takeLine_isPref (l : List Char) : takeLine l <+: l := by
  induction l with
  | nil => simp [takeLine]
  | cons c cs ih =>
    simp only [takeLine]
    split
    · exact ⟨cs, by simp_all⟩
    · obtain ⟨t, ht⟩ := ih
      exact ⟨t, by rw [List.cons_append, ht]⟩

theorem pyStrip_nil_all (l : List Char) (h : pyStrip l = []) :
    ∀ c ∈ l, pySpace c = true := by
  unfold pyStrip at h
  rw [List.reverse_eq_nil_iff, List.dropWhile_eq_nil_iff] at h
  intro c hc
  rw [← List.takeWhile_append_dropWhile (p := pySpace) (l := l), List.mem_append] at hc
  rcases hc with hc | hc
  · exact List.mem_takeWhile_imp hc
  · exact h c (List.mem_reverse.mpr hc)

theorem readline_char_space (s : TStream) (h1 : pyStrip s.readline.1.data = [])
    (i : Nat) (hi1 : s.pos ≤ i) (hi2 : i < s.readline.2.pos) :
    pySpace (s.content.getD i ' ') = true := by
  have hall := pyStrip_nil_all _ h1
  have hp2 : s.readline.2.pos = s.pos + s.readline.1.data.length := rfl
  have hj : i - s.pos < s.readline.1.data.length := by omega
  obtain ⟨t, ht⟩ := takeLine_isPref (s.content.drop s.pos)
  have hi' : s.pos + (i - s.pos) = i := by omega
  have e1 : s.content.getD i ' ' = (s.content.drop s.pos).getD (i - s.pos) ' ' := by
    rw [List.getD_eq_getElem?_getD, List.getD_eq_getElem?_getD, List.getElem?_drop, hi']
  have e2 : (s.content.drop s.pos).getD (i - s.pos) ' ' =
      (s.readline.1.data).getD (i - s.pos) ' ' := by
    conv_lhs => rw [← ht]
    rw [List.getD_eq_getElem?_getD, List.getD_eq_getElem?_getD,
      List.getElem?_append_left (by exact hj)]
    rfl
  rw [e1, e2, List.getD_eq_getElem _ _ hj]
  exact hall _ (List.getElem_mem hj)

theorem peekAux_some_spec (fuel : Nat) :
    ∀ (s s' : TStream) (w : String), peekAux fuel s = (some w, s') →
      s'.content = s.content ∧ s.pos ≤ s'.pos ∧
      (∀ i, s.pos ≤ i → i < s'.pos → pySpace (s.content.getD i ' ') = true) ∧
      pyStrip s'.readline.1.data ≠ [] ∧
      w = String.mk (firstWord (pyStrip s'.readline.1.data)) := by
  induction fuel with
  | zero => intro s s' w h; exact absurd h (by simp [peekAux])
  | succ fuel ih =>
    intro s s' w h
    simp only [peekAux] at h
    by_cases h0 : s.readline.1.data = []
    · rw [if_pos h0] at h
      exact absurd h (by simp)
    · rw [if_neg h0] at h
      by_cases h1 : pyStrip s.readline.1.data = []
      · rw [if_pos h1] at h
        obtain ⟨hc, hpos, hws, hline, hw⟩ := ih _ _ _ h
        have hc2 : s.readline.2.content = s.content := rfl
        have hp2 : s.readline.2.pos = s.pos + s.readline.1.data.length := rfl
        refine ⟨hc.trans hc2, by omega, ?_, hline, hw⟩
        intro i hi1 hi2
        by_cases hir : i < s.readline.2.pos
        · exact readline_char_space s h1 i hi1 hir
        · exact hws i (by omega) hi2
      · rw [if_neg h1] at h
        simp only [Prod.mk.injEq, Option.some.injEq] at h
        obtain ⟨hw, hs⟩ := h
        subst hs
        exact ⟨rfl, le_refl _, fun i hi1 hi2 => absurd hi2 (by omega), h1, hw.symm⟩

theorem peek_idem (s s' : TStream) (w : String) (h : s.peek = (some w, s')) :
    s'.peek = (some w, s') := by
  obtain ⟨_, _, _, hline, hw⟩ := peekAux_some_spec _ _ _ _ h
  have h0 : s'.readline.1.data ≠ [] := by
    intro hc
    apply hline
    rw [hc]
    rfl
  show peekAux (s'.content.length + 1) s' = (some w, s')
  simp only [peekAux]
  rw [if_neg h0, if_neg hline, hw]

/-- C7 (amended): a peek consumes any blank lines before the next
non-blank line (every skipped character is whitespace) but otherwise
leaves the read position at the start of that line, and peeking again
from there returns the same token and the same position; after a
partial mid-line read, the next peek yields the token starting
immediately after the read position, not the first token of the next
physical line. -/
theorem c7_peek_blank_lines_then_stable :
    (∀ (s s' : TStream) (w : String), s.peek = (some w, s') →
      s'.content = s.content ∧ s.pos ≤ s'.pos ∧
      (∀ i, s.pos ≤ i → i < s'.pos → pySpace (s.content.getD i ' ') = true) ∧
      s'.peek = (some w, s')) ∧
    ((TStream.ofString "AB CD\nEF\n").peek.1 = some "AB" ∧
      (((TStream.ofString "AB CD\nEF\n").read 3).2).peek.1 = some "CD") := by
  constructor
  · intro s s' w h
    obtain ⟨hc, hpos, hws, _, _⟩ := peekAux_some_spec _ _ _ _ h
    exact ⟨hc, hpos, hws, peek_idem s s' w h⟩
  · constructor
    · decide
    · decide

/-- C7 witness: the universal part applied to a stream positioned
directly at a non-blank line, where the position is unchanged. -/
theorem c7_peek_blank_lines_then_stable_witness :
    (TStream.ofString "A 1\n").content = (TStream.ofString "A 1\n").content ∧
      (TStream.ofString "A 1\n").pos ≤ (TStream.ofString "A 1\n").pos ∧
      (∀ i, (TStream.ofString "A 1\n").pos ≤ i → i < (TStream.ofString "A 1\n").pos →
        pySpace ((TStream.ofString "A 1\n").content.getD i ' ') = true) ∧
      (TStream.ofString "A 1\n").peek = (some "A", TStream.ofString "A 1\n") :=
  c7_peek_blank_lines_then_stable.1 (TStream.ofString "A 1\n")
    (TStream.ofString "A 1\n") "A" (by decide)

theorem toNat_ofNat_valid (n : Nat) (h : n.isValidChar) : (Char.ofNat n).toNat = n := by
  rw [Char.ofNat, dif_pos h]
  rfl

theorem upChar_idem (c : Char) : upChar (upChar c) = upChar c := by
  unfold upChar
  by_cases h : 97 ≤ c.toNat ∧ c.toNat ≤ 122
  · rw [if_pos h]
    have ht : (Char.ofNat (c.toNat - 32)).toNat = c.toNat - 32 :=
      toNat_ofNat_valid _ (Or.inl (by omega))
    rw [ht, if_neg (by omega)]
  · rw [if_neg h, if_neg h]

theorem upStr_idem (l : List Char) : upStr (upStr l) = upStr l := by
  unfold upStr
  rw [List.map_map]
  exact List.map_congr_left (fun c _ => upChar_idem c)

theorem upStr_fixed_iff (l : List Char) : upStr l = l ↔ ∀ c ∈ l, upChar c = c := by
  induction l with
  | nil => simp [upStr]
  | cons a t ih =>
    simp only [upStr, List.map_cons, List.cons.injEq, List.mem_cons]
    constructor
    · rintro ⟨h1, h2⟩ c hc
      rcases hc with rfl | hc
      · exact h1
      · exact (ih.mp h2) c hc
    · intro h
      exact ⟨h a (Or.inl rfl), ih.mpr (fun c hc => h c (Or.inr hc))⟩

theorem upStr_fixed_of_subset {v w : List Char} (hv : upStr v = v)
    (hsub : ∀ c ∈ w, c ∈ v) : upStr w = w :=
  (upStr_fixed_iff w).mpr (fun c hc => (upStr_fixed_iff v).mp hv c (hsub c hc))

theorem headerTokens_upper (header : List Char) :
    ∀ t ∈ headerTokens header, upStr t = t := by
  intro t ht
  unfold headerTokens at ht
  obtain ⟨x, _, hx⟩ := List.mem_map.mp ht
  rw [← hx]
  exact upStr_idem (pyStrip x)

theorem everyOther_subset {α : Type} : ∀ (l : List α) (x : α), x ∈ everyOther l → x ∈ l
  | [], x, h => by simp [everyOther] at h
  | [a], x, h => by simpa [everyOther] using h
  | a :: b :: rest, x, h => by
    simp only [everyOther, List.mem_cons] at h ⊢
    rcases h with rfl | h
    · exact Or.inl rfl
    · exact Or.inr (Or.inr (everyOther_subset rest x h))

theorem pyDictGet_foldl_mem (pairs : List (List Char × List Char)) :
    ∀ (acc : Option (List Char)) (k v : List Char),
    pairs.foldl (fun a p => if p.1 = k then some p.2 else a) acc = some v →
    acc = some v ∨ ∃ p ∈ pairs, p.2 = v := by
  induction pairs with
  | nil => intro acc k v h; exact Or.inl h
  | cons q qs ih =>
    intro acc k v h
    simp only [List.foldl_cons] at h
    rcases ih _ k v h with hacc | ⟨p, hp, hv⟩
    · by_cases hq : q.1 = k
      · rw [if_pos hq] at hacc
        refine Or.inr ⟨q, by simp, ?_⟩
        injection hacc
      · rw [if_neg hq] at hacc
        exact Or.inl hacc
    · exact Or.inr ⟨p, List.mem_cons_of_mem q hp, hv⟩

theorem pyDictGet_mem (pairs : List (List Char × List Char)) (k v : List Char)
    (h : pyDictGet pairs k = some v) : ∃ p ∈ pairs, p.2 = v := by
  rcases pyDictGet_foldl_mem pairs none k v h with h' | h'
  · exact absurd h' (by simp)
  · exact h'

theorem headerValue_upper (header k v : List Char)
    (h : pyDictGet (headerPairs header) k = some v) : upStr v = v := by
  obtain ⟨p, hp, hv⟩ := pyDictGet_mem _ _ _ h
  subst hv
  obtain ⟨x, y⟩ := p
  have hy : y ∈ everyOther (headerTokens header).tail.tail :=
    (List.of_mem_zip hp).2
  have hy2 : y ∈ (headerTokens header).tail.tail := everyOther_subset _ _ hy
  have hy3 : y ∈ headerTokens header :=
    List.mem_of_mem_tail (List.mem_of_mem_tail hy2)
  exact headerTokens_upper header y hy3

theorem removeDelimiters_subset (v : List Char) : ∀ c ∈ removeDelimiters v, c ∈ v := by
  unfold removeDelimiters
  intro c hc
  split at hc
  · split at hc
    · exact List.mem_of_mem_tail (List.dropLast_subset _ hc)
    · exact hc
  · exact hc

theorem splitWSAux_subset : ∀ (l acc t : List Char), t ∈ splitWSAux l acc →
    ∀ c ∈ t, c ∈ l ∨ c ∈ acc := by
  intro l
  induction l with
  | nil =>
    intro acc t ht c hc
    simp only [splitWSAux] at ht
    split at ht
    · simp at ht
    · simp only [List.mem_singleton] at ht
      subst ht
      exact Or.inr (List.mem_reverse.mp hc)
  | cons a l' ih =>
    intro acc t ht c hc
    simp only [splitWSAux] at ht
    split at ht
    · split at ht
      · rcases ih [] t ht c hc with h | h
        · exact Or.inl (List.mem_cons_of_mem a h)
        · simp at h
      · rcases List.mem_cons.mp ht with rfl | ht'
        · exact Or.inr (List.mem_reverse.mp hc)
        · rcases ih [] t ht' c hc with h | h
          · exact Or.inl (List.mem_cons_of_mem a h)
          · simp at h
    · rcases ih (a :: acc) t ht c hc with h | h
      · exact Or.inl (List.mem_cons_of_mem a h)
      · rcases List.mem_cons.mp h with hca | h'
        · exact Or.inl (by rw [hca]; exact List.mem_cons_self _ _)
        · exact Or.inr h'

theorem pySplitWS_subset (l t : List Char) (ht : t ∈ pySplitWS l) :
    ∀ c ∈ t, c ∈ l := by
  intro c hc
  rcases splitWSAux_subset l [] t ht c hc with h | h
  · exact h
  · simp at h

/-- C10: the zone-options tokenizer strips and upper-cases every token
(keys and values alike), so option spellings match case-insensitively
(`zonetype=ordered datapacking=point` parses exactly like
`ZONETYPE=ORDERED DATAPACKING=POINT`), and every string-valued option in
the parsed record (`T`, `ZONETYPE`, `DATAPACKING`, each `DT` entry) is
upper-cased. -/
theorem c10_options_uppercased :
    (∀ (header t : List Char), t ∈ headerTokens header → upStr t = t) ∧
    (zoneOptionsOfHeader "zonetype=ordered datapacking=point".data =
      zoneOptionsOfHeader "ZONETYPE=ORDERED DATAPACKING=POINT".data) ∧
    (∀ (header : List Char) (o : ZoneOptions), zoneOptionsOfHeader header = .ok o →
      upStr o.T = o.T ∧ upStr o.ZONETYPE = o.ZONETYPE ∧
      upStr o.DATAPACKING = o.DATAPACKING ∧ ∀ d ∈ o.DT, upStr d = d) := by
  refine ⟨headerTokens_upper, by decide, ?_⟩
  intro header o hok
  simp only [zoneOptionsOfHeader] at hok
  cases hI : pyIntD (pyDictGet (headerPairs header) "I".data) with
  | error e => rw [hI] at hok; exact absurd hok (by simp)
  | ok i =>
  cases hJ : pyIntD (pyDictGet (headerPairs header) "J".data) with
  | error e => rw [hI, hJ] at hok; exact absurd hok (by simp)
  | ok j =>
  cases hK : pyIntD (pyDictGet (headerPairs header) "K".data) with
  | error e => rw [hI, hJ, hK] at hok; exact absurd hok (by simp)
  | ok k =>
  rw [hI, hJ, hK] at hok
  simp only [Except.ok.injEq] at hok
  subst hok
  refine ⟨?_, ?_, ?_, ?_⟩
  · show upStr (removeDelimiters ((pyDictGet (headerPairs header) "T".data).getD [])) = _
    cases hT : pyDictGet (headerPairs header) "T".data with
    | none => rfl
    | some v =>
      simp only [Option.getD_some]
      exact upStr_fixed_of_subset (headerValue_upper header _ v hT)
        (removeDelimiters_subset v)
  · show upStr (removeDelimiters
      ((pyDictGet (headerPairs header) "ZONETYPE".data).getD "ORDERED".data)) = _
    cases hZ : pyDictGet (headerPairs header) "ZONETYPE".data with
    | none => rfl
    | some v =>
      simp only [Option.getD_some]
      exact upStr_fixed_of_subset (headerValue_upper header _ v hZ)
        (removeDelimiters_subset v)
  · show upStr (removeDelimiters
      ((pyDictGet (headerPairs header) "DATAPACKING".data).getD "BLOCK".data)) = _
    cases hD : pyDictGet (headerPairs header) "DATAPACKING".data with
    | none => rfl
    | some v =>
      simp only [Option.getD_some]
      exact upStr_fixed_of_subset (headerValue_upper header _ v hD)
        (removeDelimiters_subset v)
  · show ∀ d ∈ pySplitWS (removeDelimiters
      ((pyDictGet (headerPairs header) "DT".data).getD "DOUBLE".data)), upStr d = d
    cases hD : pyDictGet (headerPairs header) "DT".data with
    | none =>
      intro d hd
      exact upStr_fixed_of_subset (v := "DOUBLE".data) (by decide)
        (fun c hc => removeDelimiters_subset _ c
          (pySplitWS_subset _ d hd c hc))
    | some v =>
      intro d hd
      simp only [Option.getD_some] at hd
      exact upStr_fixed_of_subset (headerValue_upper header _ v hD)
        (fun c hc => removeDelimiters_subset v c (pySplitWS_subset _ d hd c hc))

/-- C10 witness: the token-uppercasing part applied to the concrete
header `i=1`, whose key token parses as `I`. -/
theorem c10_options_uppercased_witness : upStr "I".data = "I".data :=
  c10_options_uppercased.1 "i=1".data "I".data (by decide)
